import Mathlib

/-!
Verification of the movie-review program (`src/processor.rs`).

The program stores one review record per (initializer, title) pair in a
program-derived account (PDA).  Two handlers exist: `add_movie_review`
(Create) and `update_movie_review` (Update).  We embed the record codec,
the account model, and the two handlers, and prove the specified
properties about them.

Bytes are modelled as `Fin 256`, byte buffers as lists of bytes, and the
opaque `Pubkey` as a natural number.  `Pubkey.find_program_address` is a
hash-based search (SHA-256 plus an off-curve check); it is treated as an
uninterpreted parameter of the handlers, which is faithful because the
handlers only compare its output with the supplied account key.
-/

set_option maxRecDepth 40000

namespace MovieReview

abbrev Byte := Fin 256

abbrev Bytes := List Byte

abbrev Pubkey := Nat

/-- Modelled from the spec: the `MovieAccountState` struct of the missing
`state.rs`, whose borsh layout the spec fixes as
initialized flag, rating, length-prefixed title, length-prefixed
description, in that order. -/
structure MovieAccountState where
  is_initialized : Bool
  rating : Byte
  title : Bytes
  description : Bytes
deriving DecidableEq, Repr

/-- Little-endian 4-byte encoding of a `u32` length prefix. -/
def u32le (n : Nat) : Bytes :=
  [⟨n % 256, Nat.mod_lt _ (by norm_num)⟩,
   ⟨n / 256 % 256, Nat.mod_lt _ (by norm_num)⟩,
   ⟨n / 65536 % 256, Nat.mod_lt _ (by norm_num)⟩,
   ⟨n / 16777216 % 256, Nat.mod_lt _ (by norm_num)⟩]

/-- Modelled from the spec: borsh serialization of `MovieAccountState`
(`BorshSerialize`), following the binary layout of spec section 6:
1 byte flag, 1 byte rating, u32-length-prefixed title bytes,
u32-length-prefixed description bytes, little-endian. -/
def encode (s : MovieAccountState) : Bytes :=
  (if s.is_initialized then (1 : Byte) else (0 : Byte)) :: s.rating ::
    (u32le s.title.length ++ s.title ++
     u32le s.description.length ++ s.description)

/-- Read one byte. -/
def readByte : Bytes → Option (Byte × Bytes)
  | [] => none
  | b :: rest => some (b, rest)

/-- Read a borsh `bool`: one byte that must be 0 or 1. -/
def readBool : Bytes → Option (Bool × Bytes)
  | [] => none
  | b :: rest =>
      if b.val = 0 then some (false, rest)
      else if b.val = 1 then some (true, rest)
      else none

/-- Read a little-endian `u32`. -/
def readU32 : Bytes → Option (Nat × Bytes)
  | b0 :: b1 :: b2 :: b3 :: rest =>
      some (b0.val + 256 * b1.val + 65536 * b2.val + 16777216 * b3.val, rest)
  | _ => none

/-- Read exactly `n` raw bytes. -/
def readChunk (n : Nat) (l : Bytes) : Option (Bytes × Bytes) :=
  if n ≤ l.length then some (l.take n, l.drop n) else none

/-- Modelled from the spec: `try_from_slice_unchecked::<MovieAccountState>`,
borsh deserialization that ignores any bytes after the encoded record
(the `_unchecked` variant skips the all-bytes-consumed check, which is
what lets the 1000-byte slot carry trailing padding). -/
def try_from_slice_unchecked (data : Bytes) : Option MovieAccountState := do
  let (ini, r1) ← readBool data
  let (rat, r2) ← readByte r1
  let (tlen, r3) ← readU32 r2
  let (title, r4) ← readChunk tlen r3
  let (dlen, r5) ← readU32 r4
  let (descr, _) ← readChunk dlen r5
  pure ⟨ini, rat, title, descr⟩

/-- The account metadata and data the handlers look at. -/
structure AccountInfo where
  key : Pubkey
  is_signer : Bool
  owner : Pubkey
  data : Bytes
deriving DecidableEq, Repr

/-- The errors the handlers return.  Spec names in parentheses:
`MissingRequiredSignature` (Unauthorized), `InvalidArgumentError`
(InvalidAddress on Create), `InvalidPDA` (InvalidAddress on Update),
`InvalidRating`, `InvalidDataLength` (RecordTooLarge), `IllegalOwner`,
`UninitializedAccount`, `BorshIoError` (serialization write failure). -/
inductive PErr where
  | MissingRequiredSignature
  | InvalidArgumentError
  | InvalidPDA
  | InvalidRating
  | InvalidDataLength
  | IllegalOwner
  | UninitializedAccount
  | BorshIoError
deriving DecidableEq, Repr

/-- Outcome of a handler: `ok` carries the bytes of the written storage
slot; `err` is a returned `ProgramError`; `panic` is the `.unwrap()`
panic on a failed deserialization. -/
inductive HResult where
  | ok (slot : Bytes)
  | err (e : PErr)
  | panic
deriving DecidableEq, Repr

/-- `serialize(&mut &mut data[..])`: writes the encoding at offset 0 of
the existing slot, leaving bytes past the encoded length untouched;
fails (borsh `failed to write whole buffer`) if the encoding does not
fit. -/
def writeSlot (slot enc : Bytes) : Option Bytes :=
  if enc.length ≤ slot.length then some (enc ++ slot.drop enc.length) else none

/-- `Pubkey::find_program_address(&[initializer.key, title.bytes], program_id)`,
uninterpreted: any function from (initializer key, title bytes, program id)
to (pda, bump seed). -/
abbrev Fpa := Pubkey → Bytes → Pubkey → Pubkey × Nat

/-- The slot contents after a request, under the host's atomicity rule:
only an `ok` outcome commits the written bytes. -/
def resultingSlot (orig : Bytes) : HResult → Bytes
  | .ok nd => nd
  | _ => orig

/-- `add_movie_review` from `src/processor.rs`.  The
`invoke_signed(create_account(...))` host call is modelled as allocating
a fresh zero-filled slot of `account_len = 1000` bytes (the host zeroes
new account data); it is only reached after every check passes. -/
def add_movie_review (program_id : Pubkey) (fpa : Fpa)
    (initializer pda_account : AccountInfo)
    (title : Bytes) (rating : Byte) (description : Bytes) : HResult :=
  if ¬ initializer.is_signer then .err .MissingRequiredSignature
  else
    let pda := (fpa initializer.key title program_id).1
    if pda ≠ pda_account.key then .err .InvalidArgumentError
    else if rating.val > 5 ∨ rating.val < 1 then .err .InvalidRating
    else
      let total_len : Nat := 1 + 1 + (4 + title.length) + (4 + description.length)
      if total_len > 1000 then .err .InvalidDataLength
      else
        let slot : Bytes := List.replicate 1000 0
        match try_from_slice_unchecked slot with
        | none => .panic
        | some account_data =>
            let account_data :=
              { account_data with
                  title := title, rating := rating,
                  description := description, is_initialized := true }
            match writeSlot slot (encode account_data) with
            | some nd => .ok nd
            | none => .err .BorshIoError

/-- `update_movie_review` from `src/processor.rs`.  The `_title`
argument of the request is accepted but never read; the PDA is re-derived
from the title stored in the decoded record. -/
def update_movie_review (program_id : Pubkey) (fpa : Fpa)
    (initializer pda_account : AccountInfo)
    ( _title : Bytes) (rating : Byte) (description : Bytes) : HResult :=
  if pda_account.owner ≠ program_id then .err .IllegalOwner
  else if ¬ initializer.is_signer then .err .MissingRequiredSignature
  else
    match try_from_slice_unchecked pda_account.data with
    | none => .panic
    | some account_data =>
        let pda := (fpa initializer.key account_data.title program_id).1
        if pda ≠ pda_account.key then .err .InvalidPDA
        else if ¬ account_data.is_initialized then .err .UninitializedAccount
        else if rating.val > 5 ∨ rating.val < 1 then .err .InvalidRating
        else
          let total_len : Nat :=
            1 + 1 + (4 + account_data.title.length) + (4 + description.length)
          if total_len > 1000 then .err .InvalidDataLength
          else
            let account_data :=
              { account_data with rating := rating, description := description }
            match writeSlot pda_account.data (encode account_data) with
            | some nd => .ok nd
            | none => .err .BorshIoError

/-! ### Codec lemmas -/

/-- The length of an encoding equals the `total_len` formula the
handlers use: `1 + 1 + (4 + title.len()) + (4 + description.len())`. -/
theorem encode_length (s : MovieAccountState) :
    (encode s).length =
      1 + 1 + (4 + s.title.length) + (4 + s.description.length) := by
  simp [encode, u32le]
  omega

theorem readU32_u32le (n : Nat) (rest : Bytes) (h : n < 4294967296) :
    readU32 (u32le n ++ rest) = some (n, rest) := by
  simp only [u32le, List.cons_append, List.nil_append, readU32]
  congr 1
  congr 1
  omega

theorem readChunk_append (l rest : Bytes) :
    readChunk l.length (l ++ rest) = some (l, rest) := by
  simp [readChunk, List.take_left, List.drop_left]

/-- Round trip: decoding an encoded record followed by arbitrary
trailing bytes recovers the record, provided the string lengths fit in
a `u32` prefix. -/
theorem decode_encode (s : MovieAccountState) (rest : Bytes)
    (ht : s.title.length < 4294967296)
    (hd : s.description.length < 4294967296) :
    try_from_slice_unchecked (encode s ++ rest) = some s := by
  cases s with
  | mk ini rat title descr =>
    cases ini <;>
      simp [try_from_slice_unchecked, encode, readBool, readByte,
        List.append_assoc, readU32_u32le _ _ ht, readU32_u32le _ _ hd,
        readChunk_append, Option.bind]

/-- Any decoded record has string lengths below `2^32` (they were read
from a four-byte prefix and fully present in the buffer). -/
theorem decode_lengths (data : Bytes) (s : MovieAccountState)
    (h : try_from_slice_unchecked data = some s) :
    s.title.length < 4294967296 ∧ s.description.length < 4294967296 := by
  unfold try_from_slice_unchecked at h
  rcases hb : readBool data with _ | ⟨ini, r1⟩ <;> simp [hb] at h
  rcases hr : readByte r1 with _ | ⟨rat, r2⟩ <;> simp [hr] at h
  rcases ht : readU32 r2 with _ | ⟨tlen, r3⟩ <;> simp [ht] at h
  rcases hc : readChunk tlen r3 with _ | ⟨title, r4⟩ <;> simp [hc] at h
  rcases hd : readU32 r4 with _ | ⟨dlen, r5⟩ <;> simp [hd] at h
  rcases he : readChunk dlen r5 with _ | ⟨descr, r6⟩ <;> simp [he] at h
  have htitle : title.length ≤ tlen := by
    unfold readChunk at hc
    split at hc
    · simp only [Option.some.injEq, Prod.mk.injEq] at hc
      obtain ⟨h1, h2⟩ := hc
      subst h1
      have := List.length_take tlen r3
      omega
    · simp at hc
  have hdescr : descr.length ≤ dlen := by
    unfold readChunk at he
    split at he
    · simp only [Option.some.injEq, Prod.mk.injEq] at he
      obtain ⟨h1, h2⟩ := he
      subst h1
      have := List.length_take dlen r5
      omega
    · simp at he
  have htb : tlen < 4294967296 := by
    unfold readU32 at ht
    rcases r2 with _ | ⟨b0, _ | ⟨b1, _ | ⟨b2, _ | ⟨b3, r⟩⟩⟩⟩ <;> simp at ht
    have := b0.isLt; have := b1.isLt; have := b2.isLt; have := b3.isLt
    omega
  have hdb : dlen < 4294967296 := by
    unfold readU32 at hd
    rcases r4 with _ | ⟨b0, _ | ⟨b1, _ | ⟨b2, _ | ⟨b3, r⟩⟩⟩⟩ <;> simp at hd
    have := b0.isLt; have := b1.isLt; have := b2.isLt; have := b3.isLt
    omega
  rcases h with ⟨rfl⟩
  constructor <;> simp <;> omega

/-! ### Handler spine lemmas -/

/-- The record Update writes back: the decoded record with `rating` and
`description` replaced. -/
def updatedRecord (rec : MovieAccountState) (rating : Byte)
    (description : Bytes) : MovieAccountState :=
  { rec with rating := rating, description := description }

/-- Everything that must have held when `update_movie_review` returned
`ok`, and the exact shape of the written slot. -/
theorem update_ok_elim (program_id : Pubkey) (fpa : Fpa)
    (initializer pda_account : AccountInfo)
    (t : Bytes) (rating : Byte) (description : Bytes) (nd : Bytes)
    (hok : update_movie_review program_id fpa initializer pda_account
      t rating description = .ok nd) :
    ∃ rec, try_from_slice_unchecked pda_account.data = some rec ∧
      pda_account.owner = program_id ∧
      initializer.is_signer = true ∧
      (fpa initializer.key rec.title program_id).1 = pda_account.key ∧
      rec.is_initialized = true ∧
      1 ≤ rating.val ∧ rating.val ≤ 5 ∧
      1 + 1 + (4 + rec.title.length) + (4 + description.length) ≤ 1000 ∧
      (encode (updatedRecord rec rating description)).length ≤
        pda_account.data.length ∧
      nd = encode (updatedRecord rec rating description) ++
        pda_account.data.drop
          (encode (updatedRecord rec rating description)).length := by
  unfold update_movie_review at hok
  split at hok
  · simp at hok
  split at hok
  · simp at hok
  rename_i hown hsig
  rcases hdec : try_from_slice_unchecked pda_account.data with _ | rec
  · rw [hdec] at hok; simp at hok
  rw [hdec] at hok
  simp only at hok
  split at hok
  · simp at hok
  split at hok
  · simp at hok
  split at hok
  · simp at hok
  split at hok
  · simp at hok
  rename_i hpda hini hrat hlen
  refine ⟨rec, rfl, by tauto, by simpa using hsig, by tauto, by simpa using hini,
    ?_, ?_, by omega, ?_, ?_⟩
  · omega
  · omega
  · rcases hw : writeSlot pda_account.data
        (encode { rec with rating := rating, description := description }) with
        _ | nd'
    · rw [hw] at hok; simp at hok
    · unfold writeSlot at hw
      split at hw
      · simpa [updatedRecord] using ‹_›
      · simp at hw
  · rcases hw : writeSlot pda_account.data
        (encode { rec with rating := rating, description := description }) with
        _ | nd'
    · rw [hw] at hok; simp at hok
    · rw [hw] at hok
      simp only [HResult.ok.injEq] at hok
      unfold writeSlot at hw
      split at hw
      · simp only [Option.some.injEq] at hw
        rw [← hok, ← hw]
        simp [updatedRecord]
      · simp at hw

/-- A freshly allocated, zero-filled slot of at least 10 bytes decodes
to the default record: uninitialized, rating 0, both strings empty. -/
theorem decode_replicate_zero (n : Nat) (h : 10 ≤ n) :
    try_from_slice_unchecked (List.replicate n (0 : Byte)) =
      some ⟨false, 0, [], []⟩ := by
  obtain ⟨k, rfl⟩ : ∃ k, n = 10 + k := ⟨n - 10, by omega⟩
  rw [List.replicate_add,
    show List.replicate 10 (0 : Byte) = [0, 0, 0, 0, 0, 0, 0, 0, 0, 0] from rfl]
  simp [try_from_slice_unchecked, readBool, readByte, readU32, readChunk,
    Option.bind]

set_option maxRecDepth 10000 in
/-- The slot `add_movie_review` commits when every check passes: the
encoded new record at offset 0 of the fresh 1000-byte slot, zero-padded
to the end. -/
theorem add_ok_shape (program_id : Pubkey) (fpa : Fpa)
    (initializer pda_account : AccountInfo)
    (t : Bytes) (r : Byte) (d : Bytes)
    (hs : initializer.is_signer = true)
    (hp : (fpa initializer.key t program_id).1 = pda_account.key)
    (h1 : 1 ≤ r.val) (h5 : r.val ≤ 5)
    (hlen : 1 + 1 + (4 + t.length) + (4 + d.length) ≤ 1000) :
    add_movie_review program_id fpa initializer pda_account t r d =
      .ok (encode ⟨true, r, t, d⟩ ++
        List.replicate (1000 - (1 + 1 + (4 + t.length) + (4 + d.length))) 0) := by
  have hdz := decode_replicate_zero 1000 (by norm_num)
  have henc : (encode (⟨true, r, t, d⟩ : MovieAccountState)).length =
      1 + 1 + (4 + t.length) + (4 + d.length) := encode_length _
  unfold add_movie_review
  rw [if_neg (by simp [hs]), if_neg (by simp [hp])]
  rw [if_neg (by omega), if_neg (by omega)]
  simp only [hdz]
  unfold writeSlot
  rw [if_pos (by rw [henc, List.length_replicate]; omega)]
  rw [List.drop_replicate, henc]

/-! ### Claims -/

/-- C1: every successful Update preserves the stored record's title and
initialized flag; only rating and description are replaced, and the slot
is rewritten in place — its length is unchanged (no reallocation). -/
theorem update_preserves_title_and_init (program_id : Pubkey) (fpa : Fpa)
    (initializer pda_account : AccountInfo) (t : Bytes) (rating : Byte)
    (description : Bytes) (nd : Bytes)
    (hok : update_movie_review program_id fpa initializer pda_account
      t rating description = .ok nd) :
    ∃ oldRec newRec,
      try_from_slice_unchecked pda_account.data = some oldRec ∧
      try_from_slice_unchecked nd = some newRec ∧
      newRec.title = oldRec.title ∧
      newRec.is_initialized = oldRec.is_initialized ∧
      newRec.rating = rating ∧
      newRec.description = description ∧
      nd.length = pda_account.data.length := by
  obtain ⟨rec, hdec, hown, hsig, hpda, hini, h1, h5, hlen, hfit, hnd⟩ :=
    update_ok_elim _ _ _ _ _ _ _ _ hok
  have hlens := decode_lengths _ _ hdec
  refine ⟨rec, updatedRecord rec rating description, hdec, ?_, rfl, rfl, rfl,
    rfl, ?_⟩
  · rw [hnd]
    exact decode_encode _ _ (by simpa [updatedRecord] using hlens.1)
      (by simp only [updatedRecord]; omega)
  · rw [hnd]
    simp only [List.length_append, List.length_drop]
    omega

/-- Witness for C1 at a concrete input. -/
theorem update_preserves_title_and_init_witness :
    ∃ oldRec newRec,
      try_from_slice_unchecked
        ([1, 5, 1, 0, 0, 0, 65, 1, 0, 0, 0, 66] : Bytes) = some oldRec ∧
      try_from_slice_unchecked
        ([1, 3, 1, 0, 0, 0, 65, 1, 0, 0, 0, 67] : Bytes) = some newRec ∧
      newRec.title = oldRec.title ∧
      newRec.is_initialized = oldRec.is_initialized ∧
      newRec.rating = 3 ∧
      newRec.description = [67] ∧
      ([1, 3, 1, 0, 0, 0, 65, 1, 0, 0, 0, 67] : Bytes).length =
        ([1, 5, 1, 0, 0, 0, 65, 1, 0, 0, 0, 66] : Bytes).length :=
  update_preserves_title_and_init 7 (fun _ _ _ => (42, 255)) ⟨1, true, 0, []⟩
    ⟨42, false, 7, [1, 5, 1, 0, 0, 0, 65, 1, 0, 0, 0, 66]⟩ [] 3 [67]
    [1, 3, 1, 0, 0, 0, 65, 1, 0, 0, 0, 67] (by decide)

/-- C6: the result of Update does not depend on the title supplied in
the request; the handler never reads it, re-deriving the address from
the stored title instead. -/
theorem update_independent_of_request_title (program_id : Pubkey) (fpa : Fpa)
    (initializer pda_account : AccountInfo) (t₁ t₂ : Bytes) (rating : Byte)
    (description : Bytes) :
    update_movie_review program_id fpa initializer pda_account
        t₁ rating description =
      update_movie_review program_id fpa initializer pda_account
        t₂ rating description := rfl

/-- C9: a successful Update writes the new encoding at offset 0 of the
slot and leaves every byte beyond the new encoded length exactly as it
was (so a shorter encoding leaves the old encoding's tail in place). -/
theorem update_writes_at_offset_zero (program_id : Pubkey) (fpa : Fpa)
    (initializer pda_account : AccountInfo) (t : Bytes) (rating : Byte)
    (description : Bytes) (nd : Bytes)
    (hok : update_movie_review program_id fpa initializer pda_account
      t rating description = .ok nd) :
    ∃ rec, try_from_slice_unchecked pda_account.data = some rec ∧
      nd = encode (updatedRecord rec rating description) ++
        pda_account.data.drop
          (encode (updatedRecord rec rating description)).length ∧
      ∀ i, (encode (updatedRecord rec rating description)).length ≤ i →
        nd[i]? = pda_account.data[i]? := by
  obtain ⟨rec, hdec, -, -, -, -, -, -, -, hfit, hnd⟩ :=
    update_ok_elim _ _ _ _ _ _ _ _ hok
  refine ⟨rec, hdec, hnd, fun i hi => ?_⟩
  rw [hnd, List.getElem?_append_right hi, List.getElem?_drop]
  congr 1
  omega

/-- Witness for C9 at a concrete input: the new description is shorter
than the old one, and the old tail byte survives past the new length. -/
theorem update_writes_at_offset_zero_witness :
    ∃ rec,
      try_from_slice_unchecked
        ([1, 5, 1, 0, 0, 0, 65, 2, 0, 0, 0, 66, 66] : Bytes) = some rec ∧
      ([1, 3, 1, 0, 0, 0, 65, 1, 0, 0, 0, 67, 66] : Bytes) =
        encode (updatedRecord rec 3 [67]) ++
          ([1, 5, 1, 0, 0, 0, 65, 2, 0, 0, 0, 66, 66] : Bytes).drop
            (encode (updatedRecord rec 3 [67])).length ∧
      ∀ i, (encode (updatedRecord rec 3 [67])).length ≤ i →
        ([1, 3, 1, 0, 0, 0, 65, 1, 0, 0, 0, 67, 66] : Bytes)[i]? =
          ([1, 5, 1, 0, 0, 0, 65, 2, 0, 0, 0, 66, 66] : Bytes)[i]? :=
  update_writes_at_offset_zero 7 (fun _ _ _ => (42, 255)) ⟨1, true, 0, []⟩
    ⟨42, false, 7, [1, 5, 1, 0, 0, 0, 65, 2, 0, 0, 0, 66, 66]⟩ [] 3 [67]
    [1, 3, 1, 0, 0, 0, 65, 1, 0, 0, 0, 67, 66] (by decide)

/-- C7: Update is idempotent on the slot contents — running the same
Update again on the slot it produced succeeds and returns the identical
bytes. -/
theorem update_idempotent (program_id : Pubkey) (fpa : Fpa)
    (initializer pda_account : AccountInfo) (t : Bytes) (rating : Byte)
    (description : Bytes) (nd : Bytes)
    (hok : update_movie_review program_id fpa initializer pda_account
      t rating description = .ok nd) :
    update_movie_review program_id fpa initializer
      { pda_account with data := nd } t rating description = .ok nd := by
  obtain ⟨rec, hdec, hown, hsig, hpda, hini, h1, h5, hlen, hfit, hnd⟩ :=
    update_ok_elim _ _ _ _ _ _ _ _ hok
  have hlens := decode_lengths _ _ hdec
  have hdec2 : try_from_slice_unchecked nd =
      some (updatedRecord rec rating description) := by
    rw [hnd]
    exact decode_encode _ _ (by simpa [updatedRecord] using hlens.1)
      (by simp only [updatedRecord]; omega)
  simp only [updatedRecord] at hfit hnd hdec2
  unfold update_movie_review
  rw [if_neg (by simp [hown]), if_neg (by simp [hsig])]
  simp only [hdec2]
  rw [if_neg (by simp [hpda])]
  rw [if_neg (by simp [hini])]
  rw [if_neg (by omega)]
  rw [if_neg (by omega)]
  unfold writeSlot
  rw [if_pos (by rw [hnd]; simp only [List.length_append]; omega)]
  rw [hnd, List.drop_left]

/-- Witness for C7 at a concrete input. -/
theorem update_idempotent_witness :
    update_movie_review 7 (fun _ _ _ => (42, 255)) ⟨1, true, 0, []⟩
      ⟨42, false, 7, [1, 3, 1, 0, 0, 0, 65, 1, 0, 0, 0, 67]⟩ [] 3 [67] =
      .ok [1, 3, 1, 0, 0, 0, 65, 1, 0, 0, 0, 67] :=
  update_idempotent 7 (fun _ _ _ => (42, 255)) ⟨1, true, 0, []⟩
    ⟨42, false, 7, [1, 5, 1, 0, 0, 0, 65, 1, 0, 0, 0, 66]⟩ [] 3 [67]
    [1, 3, 1, 0, 0, 0, 65, 1, 0, 0, 0, 67] (by decide)

/-- C2: Update checks its preconditions in the program's order and
returns the error of the first failing one: slot owner, then signature,
then (after decoding) PDA match, initialization, rating range, and
capacity; when every check passes (and the encoding fits the actual
slot) the result is the in-place rewrite, not an error. -/
theorem update_precondition_order (program_id : Pubkey) (fpa : Fpa)
    (initializer pda_account : AccountInfo) (t : Bytes) (rating : Byte)
    (description : Bytes) :
    (pda_account.owner ≠ program_id →
      update_movie_review program_id fpa initializer pda_account
        t rating description = .err .IllegalOwner) ∧
    (pda_account.owner = program_id → initializer.is_signer = false →
      update_movie_review program_id fpa initializer pda_account
        t rating description = .err .MissingRequiredSignature) ∧
    (∀ rec, pda_account.owner = program_id → initializer.is_signer = true →
      try_from_slice_unchecked pda_account.data = some rec →
      (((fpa initializer.key rec.title program_id).1 ≠ pda_account.key →
        update_movie_review program_id fpa initializer pda_account
          t rating description = .err .InvalidPDA) ∧
      ((fpa initializer.key rec.title program_id).1 = pda_account.key →
        rec.is_initialized = false →
        update_movie_review program_id fpa initializer pda_account
          t rating description = .err .UninitializedAccount) ∧
      ((fpa initializer.key rec.title program_id).1 = pda_account.key →
        rec.is_initialized = true → (rating.val < 1 ∨ rating.val > 5) →
        update_movie_review program_id fpa initializer pda_account
          t rating description = .err .InvalidRating) ∧
      ((fpa initializer.key rec.title program_id).1 = pda_account.key →
        rec.is_initialized = true → 1 ≤ rating.val → rating.val ≤ 5 →
        1 + 1 + (4 + rec.title.length) + (4 + description.length) > 1000 →
        update_movie_review program_id fpa initializer pda_account
          t rating description = .err .InvalidDataLength) ∧
      ((fpa initializer.key rec.title program_id).1 = pda_account.key →
        rec.is_initialized = true → 1 ≤ rating.val → rating.val ≤ 5 →
        1 + 1 + (4 + rec.title.length) + (4 + description.length) ≤ 1000 →
        (encode (updatedRecord rec rating description)).length ≤
          pda_account.data.length →
        update_movie_review program_id fpa initializer pda_account
          t rating description =
          .ok (encode (updatedRecord rec rating description) ++
            pda_account.data.drop
              (encode (updatedRecord rec rating description)).length)))) := by
  refine ⟨fun h => ?_, fun h1 h2 => ?_, fun rec h1 h2 hdec =>
    ⟨fun hne => ?_, fun hpd hin => ?_, fun hpd hin hr => ?_,
     fun hpd hin hr1 hr5 hbig => ?_, fun hpd hin hr1 hr5 hsm hfit => ?_⟩⟩
  · unfold update_movie_review
    rw [if_pos h]
  · unfold update_movie_review
    rw [if_neg (by simp [h1]), if_pos (by simp [h2])]
  · unfold update_movie_review
    rw [if_neg (by simp [h1]), if_neg (by simp [h2])]
    simp only [hdec]
    rw [if_pos hne]
  · unfold update_movie_review
    rw [if_neg (by simp [h1]), if_neg (by simp [h2])]
    simp only [hdec]
    rw [if_neg (by simp [hpd]), if_pos (by simp [hin])]
  · unfold update_movie_review
    rw [if_neg (by simp [h1]), if_neg (by simp [h2])]
    simp only [hdec]
    rw [if_neg (by simp [hpd]), if_neg (by simp [hin]), if_pos (by omega)]
  · unfold update_movie_review
    rw [if_neg (by simp [h1]), if_neg (by simp [h2])]
    simp only [hdec]
    rw [if_neg (by simp [hpd]), if_neg (by simp [hin]), if_neg (by omega),
      if_pos (by omega)]
  · simp only [updatedRecord] at hfit ⊢
    unfold update_movie_review
    rw [if_neg (by simp [h1]), if_neg (by simp [h2])]
    simp only [hdec]
    rw [if_neg (by simp [hpd]), if_neg (by simp [hin]), if_neg (by omega),
      if_neg (by omega)]
    unfold writeSlot
    rw [if_pos hfit]

/-- Witness for C2 at a concrete input: an owner mismatch yields
`IllegalOwner`. -/
theorem update_precondition_order_witness :
    update_movie_review 7 (fun _ _ _ => (42, 255)) ⟨1, true, 0, []⟩
      ⟨42, false, 3, []⟩ [] 3 [] = .err .IllegalOwner :=
  (update_precondition_order 7 (fun _ _ _ => (42, 255)) ⟨1, true, 0, []⟩
    ⟨42, false, 3, []⟩ [] 3 []).1 (by decide)

/-- C3: a rating outside 1..5 (0 included) makes Create fail with
`InvalidRating` before any allocation, and makes Update fail with
`InvalidRating` once the earlier owner/signature/PDA/initialization
checks have passed; in both cases the committed storage is unchanged. -/
theorem invalid_rating_rejected (program_id : Pubkey) (fpa : Fpa)
    (initializer pda_account : AccountInfo) (t : Bytes) (rating : Byte)
    (description : Bytes) (hr : rating.val < 1 ∨ rating.val > 5) :
    (initializer.is_signer = true →
      (fpa initializer.key t program_id).1 = pda_account.key →
      add_movie_review program_id fpa initializer pda_account
        t rating description = .err .InvalidRating ∧
      ∀ orig, resultingSlot orig (add_movie_review program_id fpa initializer
        pda_account t rating description) = orig) ∧
    (∀ rec, pda_account.owner = program_id → initializer.is_signer = true →
      try_from_slice_unchecked pda_account.data = some rec →
      (fpa initializer.key rec.title program_id).1 = pda_account.key →
      rec.is_initialized = true →
      update_movie_review program_id fpa initializer pda_account
        t rating description = .err .InvalidRating ∧
      resultingSlot pda_account.data (update_movie_review program_id fpa
        initializer pda_account t rating description) = pda_account.data) := by
  constructor
  · intro hs hp
    have hadd : add_movie_review program_id fpa initializer pda_account
        t rating description = .err .InvalidRating := by
      unfold add_movie_review
      rw [if_neg (by simp [hs]), if_neg (by simp [hp]), if_pos (by omega)]
    exact ⟨hadd, fun orig => by rw [hadd]; rfl⟩
  · intro rec h1 h2 hdec hpd hin
    have hupd : update_movie_review program_id fpa initializer pda_account
        t rating description = .err .InvalidRating := by
      unfold update_movie_review
      rw [if_neg (by simp [h1]), if_neg (by simp [h2])]
      simp only [hdec]
      rw [if_neg (by simp [hpd]), if_neg (by simp [hin]), if_pos (by omega)]
    exact ⟨hupd, by rw [hupd]; rfl⟩

/-- Witness for C3 at rating 0. -/
theorem invalid_rating_rejected_witness :
    (add_movie_review 7 (fun _ _ _ => (42, 255)) ⟨1, true, 0, []⟩
      ⟨42, false, 7, []⟩ [] 0 [] = .err .InvalidRating) ∧
    resultingSlot [9] (add_movie_review 7 (fun _ _ _ => (42, 255))
      ⟨1, true, 0, []⟩ ⟨42, false, 7, []⟩ [] 0 []) = [9] ∧
    (update_movie_review 7 (fun _ _ _ => (42, 255)) ⟨1, true, 0, []⟩
      ⟨42, false, 7, [1, 5, 0, 0, 0, 0, 0, 0, 0, 0]⟩ [] 0 [] =
        .err .InvalidRating) ∧
    resultingSlot ([1, 5, 0, 0, 0, 0, 0, 0, 0, 0] : Bytes)
      (update_movie_review 7 (fun _ _ _ => (42, 255)) ⟨1, true, 0, []⟩
        ⟨42, false, 7, [1, 5, 0, 0, 0, 0, 0, 0, 0, 0]⟩ [] 0 []) =
      [1, 5, 0, 0, 0, 0, 0, 0, 0, 0] := by
  refine ⟨((invalid_rating_rejected 7 (fun _ _ _ => (42, 255)) ⟨1, true, 0, []⟩
      ⟨42, false, 7, []⟩ [] 0 [] (by decide)).1 (by decide) (by decide)).1,
    ((invalid_rating_rejected 7 (fun _ _ _ => (42, 255)) ⟨1, true, 0, []⟩
      ⟨42, false, 7, []⟩ [] 0 [] (by decide)).1 (by decide) (by decide)).2 [9],
    ?_, ?_⟩
  · exact ((invalid_rating_rejected 7 (fun _ _ _ => (42, 255)) ⟨1, true, 0, []⟩
      ⟨42, false, 7, [1, 5, 0, 0, 0, 0, 0, 0, 0, 0]⟩ [] 0 []
      (by decide)).2 ⟨true, 5, [], []⟩ (by decide) (by decide) (by decide)
      (by decide) (by decide)).1
  · exact ((invalid_rating_rejected 7 (fun _ _ _ => (42, 255)) ⟨1, true, 0, []⟩
      ⟨42, false, 7, [1, 5, 0, 0, 0, 0, 0, 0, 0, 0]⟩ [] 0 []
      (by decide)).2 ⟨true, 5, [], []⟩ (by decide) (by decide) (by decide)
      (by decide) (by decide)).2

/-- C5: a Create whose supplied slot address differs from the derived
PDA fails with the invalid-argument error (the spec's InvalidAddress)
and commits nothing. -/
theorem create_invalid_address (program_id : Pubkey) (fpa : Fpa)
    (initializer pda_account : AccountInfo) (t : Bytes) (rating : Byte)
    (description : Bytes)
    (hs : initializer.is_signer = true)
    (hne : (fpa initializer.key t program_id).1 ≠ pda_account.key) :
    add_movie_review program_id fpa initializer pda_account
      t rating description = .err .InvalidArgumentError ∧
    ∀ orig, resultingSlot orig (add_movie_review program_id fpa initializer
      pda_account t rating description) = orig := by
  have hadd : add_movie_review program_id fpa initializer pda_account
      t rating description = .err .InvalidArgumentError := by
    unfold add_movie_review
    rw [if_neg (by simp [hs]), if_pos hne]
  exact ⟨hadd, fun orig => by rw [hadd]; rfl⟩

/-- Witness for C5 at a concrete input. -/
theorem create_invalid_address_witness :
    add_movie_review 7 (fun _ _ _ => (43, 255)) ⟨1, true, 0, []⟩
      ⟨42, false, 7, []⟩ [] 3 [] = .err .InvalidArgumentError ∧
    resultingSlot [] (add_movie_review 7 (fun _ _ _ => (43, 255))
      ⟨1, true, 0, []⟩ ⟨42, false, 7, []⟩ [] 3 []) = [] := by
  refine ⟨(create_invalid_address 7 (fun _ _ _ => (43, 255)) ⟨1, true, 0, []⟩
      ⟨42, false, 7, []⟩ [] 3 [] (by decide) (by decide)).1,
    (create_invalid_address 7 (fun _ _ _ => (43, 255)) ⟨1, true, 0, []⟩
      ⟨42, false, 7, []⟩ [] 3 [] (by decide) (by decide)).2 []⟩

/-- C4: both handlers gate capacity on exactly
`total_len = 1 + 1 + (4 + title.len) + (4 + description.len)` — which is
the true encoded size — with the title taken from the request in Create
and from the stored record in Update; a total of at most 1000 passes and
anything above fails with the record-too-large error. -/
theorem capacity_check_uses_total_len (program_id : Pubkey) (fpa : Fpa)
    (initializer pda_account : AccountInfo) (t : Bytes) (rating : Byte)
    (description : Bytes)
    (hs : initializer.is_signer = true)
    (hp : (fpa initializer.key t program_id).1 = pda_account.key)
    (h1 : 1 ≤ rating.val) (h5 : rating.val ≤ 5) :
    (∀ s : MovieAccountState, (encode s).length =
      1 + 1 + (4 + s.title.length) + (4 + s.description.length)) ∧
    (1 + 1 + (4 + t.length) + (4 + description.length) ≤ 1000 →
      add_movie_review program_id fpa initializer pda_account
        t rating description =
        .ok (encode ⟨true, rating, t, description⟩ ++
          List.replicate
            (1000 - (1 + 1 + (4 + t.length) + (4 + description.length))) 0)) ∧
    (1 + 1 + (4 + t.length) + (4 + description.length) > 1000 →
      add_movie_review program_id fpa initializer pda_account
        t rating description = .err .InvalidDataLength) ∧
    (∀ rec, pda_account.owner = program_id →
      try_from_slice_unchecked pda_account.data = some rec →
      (fpa initializer.key rec.title program_id).1 = pda_account.key →
      rec.is_initialized = true →
      ((1 + 1 + (4 + rec.title.length) + (4 + description.length) > 1000 →
        update_movie_review program_id fpa initializer pda_account
          t rating description = .err .InvalidDataLength) ∧
       (1 + 1 + (4 + rec.title.length) + (4 + description.length) ≤ 1000 →
        (encode (updatedRecord rec rating description)).length ≤
          pda_account.data.length →
        ∃ nd, update_movie_review program_id fpa initializer pda_account
          t rating description = .ok nd))) := by
  refine ⟨fun s => encode_length s, fun hle => ?_, fun hgt => ?_,
    fun rec hown hdec hpd hin => ⟨fun hgt => ?_, fun hle hfit => ?_⟩⟩
  · exact add_ok_shape program_id fpa initializer pda_account
      t rating description hs hp h1 h5 hle
  · unfold add_movie_review
    rw [if_neg (by simp [hs]), if_neg (by simp [hp]), if_neg (by omega),
      if_pos (by omega)]
  · unfold update_movie_review
    rw [if_neg (by simp [hown]), if_neg (by simp [hs])]
    simp only [hdec]
    rw [if_neg (by simp [hpd]), if_neg (by simp [hin]), if_neg (by omega),
      if_pos (by omega)]
  · refine ⟨encode (updatedRecord rec rating description) ++
      pda_account.data.drop
        (encode (updatedRecord rec rating description)).length, ?_⟩
    simp only [updatedRecord] at hfit ⊢
    unfold update_movie_review
    rw [if_neg (by simp [hown]), if_neg (by simp [hs])]
    simp only [hdec]
    rw [if_neg (by simp [hpd]), if_neg (by simp [hin]), if_neg (by omega),
      if_neg (by omega)]
    unfold writeSlot
    rw [if_pos hfit]

/-- Witness for C4 at the capacity boundary: encoded size exactly 1000
(title empty, description 990 bytes) succeeds; 1001 fails. -/
theorem capacity_check_uses_total_len_witness :
    add_movie_review 7 (fun _ _ _ => (42, 255)) ⟨1, true, 0, []⟩
      ⟨42, false, 7, []⟩ [] 3 (List.replicate 990 0) =
      .ok (encode ⟨true, 3, [], List.replicate 990 0⟩ ++ List.replicate 0 0) ∧
    add_movie_review 7 (fun _ _ _ => (42, 255)) ⟨1, true, 0, []⟩
      ⟨42, false, 7, []⟩ [] 3 (List.replicate 991 0) =
      .err .InvalidDataLength := by
  constructor
  · have h := (capacity_check_uses_total_len 7 (fun _ _ _ => (42, 255))
      ⟨1, true, 0, []⟩ ⟨42, false, 7, []⟩ [] 3 (List.replicate 990 0)
      (by decide) (by decide) (by decide) (by decide)).2.1 (by simp)
    simpa using h
  · exact (capacity_check_uses_total_len 7 (fun _ _ _ => (42, 255))
      ⟨1, true, 0, []⟩ ⟨42, false, 7, []⟩ [] 3 (List.replicate 991 0)
      (by decide) (by decide) (by decide) (by decide)).2.2.1 (by simp)

/-- C8: both handlers decode with an unguarded `unwrap`, so undecodable
slot bytes panic rather than return an error; but a zero-filled slot
decodes to the default record (uninitialized, rating 0, empty strings)
and bytes written by `encode` always decode back, so under the fresh-or-
previously-encoded precondition the panic is unreachable — in
particular Create, which only ever decodes the fresh zero-filled slot,
never panics. -/
theorem decode_unwrap_behavior :
    (∀ n, 10 ≤ n → try_from_slice_unchecked (List.replicate n (0 : Byte)) =
      some ⟨false, 0, [], []⟩) ∧
    (∀ (s : MovieAccountState) (rest : Bytes),
      s.title.length < 4294967296 → s.description.length < 4294967296 →
      try_from_slice_unchecked (encode s ++ rest) = some s) ∧
    (∀ (program_id : Pubkey) (fpa : Fpa)
      (initializer pda_account : AccountInfo) (t : Bytes) (rating : Byte)
      (description : Bytes),
      pda_account.owner = program_id → initializer.is_signer = true →
      try_from_slice_unchecked pda_account.data = none →
      update_movie_review program_id fpa initializer pda_account
        t rating description = .panic) ∧
    (∀ (program_id : Pubkey) (fpa : Fpa)
      (initializer pda_account : AccountInfo) (t : Bytes) (rating : Byte)
      (description : Bytes),
      add_movie_review program_id fpa initializer pda_account
        t rating description ≠ .panic) := by
  refine ⟨decode_replicate_zero, decode_encode,
    fun pid fpa ini pda t r d h1 h2 hdec => ?_, fun pid fpa ini pda t r d => ?_⟩
  · unfold update_movie_review
    rw [if_neg (by simp [h1]), if_neg (by simp [h2])]
    simp only [hdec]
  · intro hpan
    unfold add_movie_review at hpan
    by_cases hsg : ¬ini.is_signer
    · rw [if_pos hsg] at hpan
      exact absurd hpan (by simp)
    rw [if_neg hsg] at hpan
    by_cases hpk : (fpa ini.key t pid).1 ≠ pda.key
    · rw [if_pos hpk] at hpan
      exact absurd hpan (by simp)
    rw [if_neg hpk] at hpan
    by_cases hr : (r.val > 5 ∨ r.val < 1)
    · rw [if_pos hr] at hpan
      exact absurd hpan (by simp)
    rw [if_neg hr] at hpan
    by_cases hl : 1 + 1 + (4 + t.length) + (4 + d.length) > 1000
    · rw [if_pos hl] at hpan
      exact absurd hpan (by simp)
    rw [if_neg hl] at hpan
    simp only [decode_replicate_zero 1000 (by norm_num)] at hpan
    unfold writeSlot at hpan
    split at hpan
    · simp at hpan
    · simp at hpan

/-- Witness for C8: the 1000-byte zero slot decodes to the default
record, and Update on a slot starting with the byte 2 (not a valid
borsh bool) panics. -/
theorem decode_unwrap_behavior_witness :
    try_from_slice_unchecked (List.replicate 1000 (0 : Byte)) =
      some ⟨false, 0, [], []⟩ ∧
    update_movie_review 7 (fun _ _ _ => (42, 255)) ⟨1, true, 0, []⟩
      ⟨42, false, 7, [2]⟩ [] 3 [] = .panic :=
  ⟨decode_unwrap_behavior.1 1000 (by norm_num),
   decode_unwrap_behavior.2.2.1 7 (fun _ _ _ => (42, 255)) ⟨1, true, 0, []⟩
     ⟨42, false, 7, [2]⟩ [] 3 [] (by decide) (by decide) (by decide)⟩

/-- C10: Create imposes no lower bound on string lengths: with a valid
signer, a matching PDA, and a rating in 1..5, empty title and empty
description pass every check (encoded size 10) and the written slot
decodes to an initialized record with that rating and empty strings. -/
theorem create_accepts_empty_strings (program_id : Pubkey) (fpa : Fpa)
    (initializer pda_account : AccountInfo) (rating : Byte)
    (hs : initializer.is_signer = true)
    (hp : (fpa initializer.key [] program_id).1 = pda_account.key)
    (h1 : 1 ≤ rating.val) (h5 : rating.val ≤ 5) :
    add_movie_review program_id fpa initializer pda_account [] rating [] =
      .ok (encode ⟨true, rating, [], []⟩ ++ List.replicate 990 0) ∧
    (encode (⟨true, rating, [], []⟩ : MovieAccountState)).length = 10 ∧
    try_from_slice_unchecked
      (encode ⟨true, rating, [], []⟩ ++ List.replicate 990 0) =
      some ⟨true, rating, [], []⟩ := by
  refine ⟨?_, by simp [encode, u32le], ?_⟩
  · have h := add_ok_shape program_id fpa initializer pda_account
      [] rating [] hs hp h1 h5 (by norm_num)
    simpa using h
  · exact decode_encode _ _ (by norm_num) (by norm_num)

/-- Witness for C10 at rating 1. -/
theorem create_accepts_empty_strings_witness :
    add_movie_review 7 (fun _ _ _ => (42, 255)) ⟨1, true, 0, []⟩
      ⟨42, false, 7, []⟩ [] 1 [] =
      .ok (encode ⟨true, 1, [], []⟩ ++ List.replicate 990 0) ∧
    (encode (⟨true, 1, [], []⟩ : MovieAccountState)).length = 10 ∧
    try_from_slice_unchecked
      (encode ⟨true, 1, [], []⟩ ++ List.replicate 990 0) =
      some ⟨true, 1, [], []⟩ :=
  create_accepts_empty_strings 7 (fun _ _ _ => (42, 255)) ⟨1, true, 0, []⟩
    ⟨42, false, 7, []⟩ 1 (by decide) (by decide) (by decide) (by decide)

end MovieReview
